import Mathlib

/-!
Verification of the ni-viewer strip-chart rendering core (src/main.rs).

The source is a single-file egui application.  Its algorithmic core —
windowing arithmetic, downsampling, the per-channel affine coordinate
transform, view-bound computation, scroll-driven zoom, the running-state
toggle and the axis tick formatters — is embedded here as pure Lean
functions.  Machine floating point (`f64`) is modelled with exact
arithmetic: `ℚ` for the data path (computable, decidable) and `ℝ` for the
scroll-zoom exponential `1.005^s`, which needs a real-valued exponent.
Rust `usize` arithmetic is modelled by `ℕ` (Nat subtraction is Rust's
`saturating_sub`; Nat division is Rust's flooring `/`), and the `as usize`
cast of a positive float is truncation, i.e. `Int.toNat ∘ Int.floor`.
-/

/-- `Channel` from main.rs lines 185-189: a named trace with vertical
half-range `zoom` and vertical center `pos`. -/
structure Channel where
  name : String
  zoom : ℚ
  pos : ℚ
  deriving DecidableEq

/-- `Channel::new` (main.rs lines 190-197): `pos` starts at 0. -/
def Channel.new (name : String) (initial_zoom : ℚ) : Channel :=
  { name := name, zoom := initial_zoom, pos := 0 }

/-- The overlay coordinate transform applied to each downsampled value
(main.rs lines 148-149): `(y - channel.pos) / channel.zoom * active.zoom
+ active.pos`. -/
def transform (y : ℚ) (channel active : Channel) : ℚ :=
  (y - channel.pos) / channel.zoom * active.zoom + active.pos

/-- Arithmetic mean of a list of values. -/
def mean (l : List ℚ) : ℚ := l.sum / l.length

/-- `values_per_window` (main.rs line 133):
`(self.plot_time * self.sample_rate) as usize`.  The Rust `as usize`
cast truncates toward zero and saturates at 0, which is
`Int.toNat ⌊·⌋` on the (here nonnegative) product. -/
def values_per_window (plot_time sample_rate : ℚ) : ℕ :=
  Int.toNat ⌊plot_time * sample_rate⌋

/-- `group_size` (main.rs line 134):
`(values_per_window / self.points_per_channel).max(1)`. -/
def group_size (vpw points_per_channel : ℕ) : ℕ :=
  max (vpw / points_per_channel) 1

/-- `first_index` (main.rs lines 135-136):
`data[0].len().saturating_sub(values_per_window) / group_size * group_size`.
Nat subtraction is saturating. -/
def first_index (len vpw gs : ℕ) : ℕ :=
  (len - vpw) / gs * gs

/-- The downsampling loop (main.rs lines 139-151) applied to the suffix
`values = data[i][first_index..]`: for each `i` in
`0..(values.len() / group_size)` emit the point with time
`((i * group_size) as f64 - values.len() as f64) / sample_rate` and value
`values[i*group_size..(i+1)*group_size].sum() / group_size`. -/
def downsample (values : List ℚ) (gs : ℕ) (sample_rate : ℚ) : List (ℚ × ℚ) :=
  (List.range (values.length / gs)).map fun i =>
    ((((i * gs : ℕ) : ℚ) - (values.length : ℚ)) / sample_rate,
     ((values.drop (i * gs)).take gs).sum / (gs : ℚ))

/-- The plot rectangle handed to `plot_ui.set_plot_bounds`. -/
structure Bounds where
  x_min : ℚ
  y_min : ℚ
  x_max : ℚ
  y_max : ℚ
  deriving DecidableEq

/-- View-bound computation (main.rs lines 126-131): the rectangle is
rebuilt each frame from `plot_time` and the active channel alone
(`x_min = -plot_time`, `y_min = -1 * zoom + pos`,
`x_max = plot_time * 0.1`, `y_max = 1 * zoom + pos`). -/
def viewBounds (plot_time : ℚ) (active : Channel) : Bounds :=
  { x_min := -plot_time
    y_min := -1 * active.zoom + active.pos
    x_max := plot_time * (1 / 10)
    y_max := 1 * active.zoom + active.pos }

/-- Sum of an affine image of a list: the workhorse behind the
mean/transform commutation. -/
lemma sum_map_affine (A B : ℚ) (l : List ℚ) :
    (l.map fun y => y * A + B).sum = l.sum * A + l.length * B := by
  induction l with
  | nil => simp
  | cons x xs ih =>
    simp only [List.map_cons, List.sum_cons, ih, List.length_cons]
    push_cast
    ring

/-- C4: When the transformed channel is the active channel, the overlay
coordinate transform is the identity: `transform y c c = y` whenever
`c.zoom ≠ 0`. -/
theorem transform_active_identity (y : ℚ) (c : Channel) (hz : c.zoom ≠ 0) :
    transform y c c = y := by
  unfold transform
  rw [div_mul_cancel₀ _ hz]
  ring

/-- Witness for `transform_active_identity` at `y = 7`,
`c = ⟨"Displacement", 2, 3⟩`. -/
theorem transform_active_identity_witness :
    ({ name := "Displacement", zoom := 2, pos := 3 } : Channel).zoom ≠ 0 ∧
      transform 7 { name := "Displacement", zoom := 2, pos := 3 }
        { name := "Displacement", zoom := 2, pos := 3 } = 7 :=
  ⟨by decide, transform_active_identity 7 _ (by decide)⟩

/-- C3: The overlay coordinate transform is affine, hence commutes with
the arithmetic mean: transforming the mean of a nonempty list equals the
mean of the transformed list, for any channel with nonzero zoom. -/
theorem transform_commutes_with_mean (ys : List ℚ) (c a : Channel)
    (hys : ys ≠ []) (hz : c.zoom ≠ 0) :
    transform (mean ys) c a = mean (ys.map fun y => transform y c a) := by
  have hn : (ys.length : ℚ) ≠ 0 := by
    exact_mod_cast fun h => hys (List.length_eq_zero.mp h)
  have hA : ∀ y : ℚ, transform y c a =
      y * (a.zoom / c.zoom) + (a.pos - c.pos * (a.zoom / c.zoom)) := by
    intro y
    unfold transform
    field_simp
    ring
  simp only [hA]
  rw [mean, mean, sum_map_affine, List.length_map]
  field_simp
  ring

/-- Witness for `transform_commutes_with_mean` at `ys = [1, 5]`,
`c = ⟨"Displacement", 2, 1⟩`, `a = ⟨"Voltage", 3, 4⟩`. -/
theorem transform_commutes_with_mean_witness :
    ([1, 5] : List ℚ) ≠ [] ∧
      ({ name := "Displacement", zoom := 2, pos := 1 } : Channel).zoom ≠ 0 ∧
      transform (mean [1, 5]) { name := "Displacement", zoom := 2, pos := 1 }
          { name := "Voltage", zoom := 3, pos := 4 } =
        mean (([1, 5] : List ℚ).map fun y =>
          transform y { name := "Displacement", zoom := 2, pos := 1 }
            { name := "Voltage", zoom := 3, pos := 4 }) :=
  ⟨by decide, by decide,
    transform_commutes_with_mean [1, 5] _ _ (by decide) (by decide)⟩

/-- C7: The view rectangle is a pure function of the current `plot_time`
and active channel (recomputed from scratch each frame) with horizontal
bounds `[-plot_time, 0.1 * plot_time]` and vertical bounds
`[pos - zoom, pos + zoom]`. -/
theorem view_bounds_recomputed (plot_time : ℚ) (c : Channel) :
    viewBounds plot_time c =
      { x_min := -plot_time, y_min := c.pos - c.zoom,
        x_max := (1 / 10) * plot_time, y_max := c.pos + c.zoom } := by
  unfold viewBounds
  congr 1 <;> ring

/-- Each fully formed group in the suffix lies within the slice: group
`i` of the loop touches indices `[i*gs, (i+1)*gs)`, all below
`values.length` when `i < values.length / gs`. -/
lemma group_end_le (len gs i : ℕ) (hi : i < len / gs) :
    i * gs + gs ≤ len := by
  have h1 : (i + 1) * gs ≤ len / gs * gs :=
    Nat.mul_le_mul_right gs (Nat.succ_le_of_lt hi)
  have h2 : len / gs * gs ≤ len := Nat.div_mul_le_self len gs
  calc i * gs + gs = (i + 1) * gs := by ring
    _ ≤ len / gs * gs := h1
    _ ≤ len := h2

/-- Group `i` of the downsampling loop, as a list slice. -/
lemma group_length (values : List ℚ) (gs i : ℕ)
    (hi : i < values.length / gs) :
    ((values.drop (i * gs)).take gs).length = gs := by
  have := group_end_le values.length gs i hi
  simp only [List.length_take, List.length_drop]
  omega

/-- C1: On the suffix handed to it, the downsampling loop emits exactly
`⌊suffix_len / group_size⌋` points; point `i` has time
`(i * group_size - suffix_len) / sample_rate` and value the arithmetic
mean of group `i` (`group_size` consecutive samples starting at
`i * group_size`); the emitted times are strictly increasing. -/
theorem downsample_emits_group_means (values : List ℚ) (gs : ℕ) (sr : ℚ)
    (hgs : 1 ≤ gs) (hsr : 0 < sr) :
    (downsample values gs sr).length = values.length / gs ∧
    (∀ i, i < values.length / gs →
      ((values.drop (i * gs)).take gs).length = gs ∧
      (downsample values gs sr).getD i (0, 0) =
        ((((i * gs : ℕ) : ℚ) - (values.length : ℚ)) / sr,
         mean ((values.drop (i * gs)).take gs))) ∧
    ((downsample values gs sr).map Prod.fst).Pairwise (· < ·) := by
  refine ⟨by simp [downsample], ?_, ?_⟩
  · intro i hi
    have hlen := group_length values gs i hi
    refine ⟨hlen, ?_⟩
    have hi' : i < (downsample values gs sr).length := by
      simpa [downsample] using hi
    rw [List.getD_eq_getElem _ _ hi']
    simp [downsample, mean, hlen]
  · have hmap : (downsample values gs sr).map Prod.fst =
        (List.range (values.length / gs)).map
          (fun i => (((i * gs : ℕ) : ℚ) - (values.length : ℚ)) / sr) := by
      simp [downsample, Function.comp]
    rw [hmap]
    refine List.Pairwise.map _ ?_ (List.pairwise_lt_range _)
    intro a b hab
    have h1 : a * gs < b * gs :=
      (Nat.mul_lt_mul_right (Nat.lt_of_lt_of_le Nat.zero_lt_one hgs)).mpr hab
    have h2 : ((a * gs : ℕ) : ℚ) < ((b * gs : ℕ) : ℚ) := by exact_mod_cast h1
    exact (div_lt_div_iff_of_pos_right hsr).mpr (sub_lt_sub_right h2 _)

/-- Witness for `downsample_emits_group_means` at
`values = [1, 2, 3, 4]`, `group_size = 2`, `sample_rate = 1`. -/
theorem downsample_emits_group_means_witness :
    1 ≤ 2 ∧ 0 < (1 : ℚ) ∧
      ((downsample [1, 2, 3, 4] 2 1).length = ([1, 2, 3, 4] : List ℚ).length / 2 ∧
        (∀ i, i < ([1, 2, 3, 4] : List ℚ).length / 2 →
          ((([1, 2, 3, 4] : List ℚ).drop (i * 2)).take 2).length = 2 ∧
          (downsample [1, 2, 3, 4] 2 1).getD i (0, 0) =
            ((((i * 2 : ℕ) : ℚ) - ((([1, 2, 3, 4] : List ℚ).length : ℕ) : ℚ)) / 1,
             mean ((([1, 2, 3, 4] : List ℚ).drop (i * 2)).take 2))) ∧
        ((downsample [1, 2, 3, 4] 2 1).map Prod.fst).Pairwise (· < ·)) :=
  ⟨by decide, by decide,
    downsample_emits_group_means [1, 2, 3, 4] 2 1 (by decide) (by decide)⟩

/-- C10: Every point the downsampling loop emits has time at most
`-group_size / sample_rate`, hence strictly negative — no rendered point
lies at or after time 0 — while the view rectangle does extend to
`0.1 * plot_time > 0` past zero. -/
theorem downsample_times_negative (values : List ℚ) (gs : ℕ) (sr : ℚ)
    (hgs : 1 ≤ gs) (hsr : 0 < sr) :
    (∀ p ∈ downsample values gs sr, p.1 ≤ -((gs : ℚ) / sr) ∧ p.1 < 0) ∧
    (∀ plot_time : ℚ, 0 < plot_time → ∀ c : Channel,
      0 < (viewBounds plot_time c).x_max) := by
  have hq : 0 < ((gs : ℕ) : ℚ) := by exact_mod_cast hgs
  constructor
  · intro p hp
    obtain ⟨i, hi, rfl⟩ := List.mem_map.mp hp
    rw [List.mem_range] at hi
    have hle := group_end_le values.length gs i hi
    have hnum : (((i * gs : ℕ) : ℚ) - (values.length : ℚ)) ≤ -(gs : ℚ) := by
      have h := hle
      have : ((i * gs : ℕ) : ℚ) + (gs : ℚ) ≤ (values.length : ℚ) := by
        exact_mod_cast h
      linarith
    have hdiv : (((i * gs : ℕ) : ℚ) - (values.length : ℚ)) / sr ≤
        -((gs : ℚ)) / sr :=
      (div_le_div_iff_of_pos_right hsr).mpr hnum
    refine ⟨by simpa [neg_div] using hdiv, ?_⟩
    have hneg : -((gs : ℚ) / sr) < 0 := neg_neg_of_pos (div_pos hq hsr)
    calc (((i * gs : ℕ) : ℚ) - (values.length : ℚ)) / sr
        ≤ -((gs : ℚ) / sr) := by simpa [neg_div] using hdiv
      _ < 0 := hneg
  · intro plot_time hpt c
    have : (viewBounds plot_time c).x_max = plot_time * (1 / 10) := rfl
    rw [this]
    exact mul_pos hpt (by norm_num)

/-- Witness for `downsample_times_negative` at `values = [1, 2, 3, 4]`,
`group_size = 2`, `sample_rate = 1`. -/
theorem downsample_times_negative_witness :
    1 ≤ 2 ∧ 0 < (1 : ℚ) ∧
      ((∀ p ∈ downsample [1, 2, 3, 4] 2 1, p.1 ≤ -(((2 : ℕ) : ℚ) / 1) ∧ p.1 < 0) ∧
        (∀ plot_time : ℚ, 0 < plot_time → ∀ c : Channel,
          0 < (viewBounds plot_time c).x_max)) :=
  ⟨by decide, by decide,
    downsample_times_negative [1, 2, 3, 4] 2 1 (by decide) (by decide)⟩

/-- Rust's range-from slice `&data[fi..]`: the suffix when `fi` is in
bounds, a panic (modelled as `none`) when `fi` exceeds the length. -/
def sliceFrom (data : List ℚ) (fi : ℕ) : Option (List ℚ) :=
  if fi ≤ data.length then some (data.drop fi) else none

/-- C9: `first_index` is computed from channel 0's length alone but used
to slice every channel.  It never exceeds the length it was computed
from, so when every channel has that same length each slice
`data[i][first_index..]` is in bounds and yields the suffix; dropping
that precondition, a concrete run (channel 0 of length 10, window of 5
samples) yields `first_index = 5`, and slicing a channel of only 4
samples there is out of bounds. -/
theorem first_index_slice_bounds (plot_time sample_rate : ℚ) (P len0 : ℕ)
    (data : List (List ℚ)) (heq : ∀ d ∈ data, d.length = len0) :
    (∀ d ∈ data,
      sliceFrom d (first_index len0 (values_per_window plot_time sample_rate)
          (group_size (values_per_window plot_time sample_rate) P)) =
        some (d.drop (first_index len0 (values_per_window plot_time sample_rate)
          (group_size (values_per_window plot_time sample_rate) P)))) ∧
    (first_index 10 (values_per_window 1 5)
        (group_size (values_per_window 1 5) 1000) = 5 ∧
      sliceFrom (List.replicate 4 0) (first_index 10 (values_per_window 1 5)
        (group_size (values_per_window 1 5) 1000)) = none) := by
  have hv : values_per_window 1 5 = 5 := by
    have h5 : ⌊(1 : ℚ) * 5⌋ = 5 := by norm_num
    rw [values_per_window, h5]
    rfl
  refine ⟨?_, ?_, ?_⟩
  · intro d hd
    have hle : first_index len0 (values_per_window plot_time sample_rate)
        (group_size (values_per_window plot_time sample_rate) P) ≤ d.length := by
      rw [heq d hd]
      exact le_trans (Nat.div_mul_le_self _ _) (Nat.sub_le _ _)
    rw [sliceFrom, if_pos hle]
  · rw [hv]
    decide
  · rw [hv]
    decide

/-- Witness for `first_index_slice_bounds` with two equal-length
channels of 3 samples each. -/
theorem first_index_slice_bounds_witness :
    (∀ d ∈ [[1, 2, 3], [4, 5, 6]], List.length d = 3) ∧
      ((∀ d ∈ ([[1, 2, 3], [4, 5, 6]] : List (List ℚ)),
        sliceFrom d (first_index 3 (values_per_window 2 3)
            (group_size (values_per_window 2 3) 1000)) =
          some (d.drop (first_index 3 (values_per_window 2 3)
            (group_size (values_per_window 2 3) 1000)))) ∧
      (first_index 10 (values_per_window 1 5)
          (group_size (values_per_window 1 5) 1000) = 5 ∧
        sliceFrom (List.replicate 4 0) (first_index 10 (values_per_window 1 5)
          (group_size (values_per_window 1 5) 1000)) = none)) :=
  ⟨by decide,
    first_index_slice_bounds 2 3 1000 3 [[1, 2, 3], [4, 5, 6]] (by decide)⟩

/-- Modelled from the spec (claim C2 and spec section 4.2): the window
length computed with rounding, `W = round(plot_time * sample_rate)`.
The source instead truncates: `(plot_time * sample_rate) as usize`. -/
def values_per_window_spec (plot_time sample_rate : ℚ) : ℕ :=
  Int.toNat (round (plot_time * sample_rate))

/-- Counterexample to C2 as stated: at `plot_time = 3/2`,
`sample_rate = 1`, `P = 1`, `len = 2`, the code's window length is the
truncation 1, not the claimed rounding 2, and the resulting
`first_index` is 1 where the claimed formula gives 0. -/
theorem window_length_round_counterexample :
    values_per_window (3 / 2) 1 = 1 ∧
      values_per_window_spec (3 / 2) 1 = 2 ∧
      first_index 2 (values_per_window (3 / 2) 1)
        (group_size (values_per_window (3 / 2) 1) 1) = 1 ∧
      first_index 2 (values_per_window_spec (3 / 2) 1)
        (group_size (values_per_window_spec (3 / 2) 1) 1) = 0 := by
  have h1 : values_per_window (3 / 2) 1 = 1 := by
    have hf : ⌊(3 / 2 : ℚ) * 1⌋ = 1 := by norm_num
    rw [values_per_window, hf]
    rfl
  have h2 : values_per_window_spec (3 / 2) 1 = 2 := by
    have hf : round ((3 / 2 : ℚ) * 1) = 2 := by
      rw [round_eq]
      norm_num
    rw [values_per_window_spec, hf]
    rfl
  refine ⟨h1, h2, ?_, ?_⟩
  · rw [h1]
    decide
  · rw [h2]
    decide

/-- C2 (amended): the window length is the truncation
`W = ⌊plot_time * sample_rate⌋` (not a rounding); `group_size` and
`first_index` are then as the claim states them, with saturating
subtraction, so a window at least as long as the history starts the
slice at 0, and the group size is always at least 1. -/
theorem window_params_floor (plot_time sample_rate : ℚ) (P len : ℕ)
    (hpt : 0 < plot_time) (hsr : 0 < sample_rate) (hP : 1 ≤ P) :
    values_per_window plot_time sample_rate =
        Int.toNat ⌊plot_time * sample_rate⌋ ∧
      group_size (values_per_window plot_time sample_rate) P =
        max 1 (values_per_window plot_time sample_rate / P) ∧
      1 ≤ group_size (values_per_window plot_time sample_rate) P ∧
      first_index len (values_per_window plot_time sample_rate)
          (group_size (values_per_window plot_time sample_rate) P) =
        (len - values_per_window plot_time sample_rate) /
            group_size (values_per_window plot_time sample_rate) P *
          group_size (values_per_window plot_time sample_rate) P ∧
      (len ≤ values_per_window plot_time sample_rate →
        first_index len (values_per_window plot_time sample_rate)
          (group_size (values_per_window plot_time sample_rate) P) = 0) := by
  refine ⟨rfl, max_comm _ _, le_max_right _ _, rfl, ?_⟩
  intro h
  rw [first_index, Nat.sub_eq_zero_of_le h]
  simp

/-- Witness for `window_params_floor` at `plot_time = 2`,
`sample_rate = 3`, `P = 1`, `len = 5`. -/
theorem window_params_floor_witness :
    0 < (2 : ℚ) ∧ 0 < (3 : ℚ) ∧ 1 ≤ 1 ∧
      (values_per_window 2 3 = Int.toNat ⌊(2 : ℚ) * 3⌋ ∧
        group_size (values_per_window 2 3) 1 =
          max 1 (values_per_window 2 3 / 1) ∧
        1 ≤ group_size (values_per_window 2 3) 1 ∧
        first_index 5 (values_per_window 2 3)
            (group_size (values_per_window 2 3) 1) =
          (5 - values_per_window 2 3) / group_size (values_per_window 2 3) 1 *
            group_size (values_per_window 2 3) 1 ∧
        (5 ≤ values_per_window 2 3 →
          first_index 5 (values_per_window 2 3)
            (group_size (values_per_window 2 3) 1) = 0)) :=
  ⟨by decide, by decide, by decide,
    window_params_floor 2 3 1 5 (by decide) (by decide) (by decide)⟩

/-- Result of a `start()`/`stop()` call on the acquisition task. -/
inductive CallResult where
  | ok
  | err
  deriving DecidableEq

/-- Outcome of one click of the Start/Stop button: the final `running`
flag and whether the frame panicked (`unwrap` on an `Err`). -/
structure ToggleOutcome where
  running : Bool
  panicked : Bool
  deriving DecidableEq

/-- The Start/Stop button handler (main.rs lines 62-70): the `running`
flag is flipped first, then `stop()`/`start()` is called and its result
unwrapped — an `Err` panics the frame. -/
def toggleRunning (running : Bool) (stopResult startResult : CallResult) :
    ToggleOutcome :=
  if running then
    match stopResult with
    | .ok => { running := false, panicked := false }
    | .err => { running := false, panicked := true }
  else
    match startResult with
    | .ok => { running := true, panicked := false }
    | .err => { running := true, panicked := true }

/-- Counterexample to C6 as stated: when `start()` fails on a click
while stopped, the handler neither keeps `running = false` nor avoids
crashing — the flag was already set to `true` and the `unwrap` panics. -/
theorem toggle_failure_counterexample :
    ¬ ((toggleRunning false CallResult.ok CallResult.err).running = false ∧
        (toggleRunning false CallResult.ok CallResult.err).panicked = false) := by
  decide

/-- C6 (amended): a failed `start()`/`stop()` call panics the frame
(crashing the view) rather than aborting the transition; the `running`
flag has already been flipped before the fallible call, so it never
retains its pre-toggle value. -/
theorem toggle_failure_panics (running : Bool)
    (stopResult startResult : CallResult) :
    (toggleRunning running stopResult startResult).running = !running ∧
      ((toggleRunning running stopResult startResult).panicked = true ↔
        (if running then stopResult else startResult) = CallResult.err) := by
  cases running <;> cases stopResult <;> cases startResult <;> decide

/-- One-decimal fixed-point rendering of a value, as Rust's
`format!("{:.1}", x)` renders it (rounding to the nearest tenth). -/
def fmtOneDecimal (q : ℚ) : String :=
  (if round (q * 10) < 0 then "-" else "") ++
    toString ((round (q * 10)).natAbs / 10) ++ "." ++
    toString ((round (q * 10)).natAbs % 10)

/-- Rust's `as isize` cast: truncation toward zero. -/
def truncInt (q : ℚ) : ℤ := if 0 ≤ q then ⌊q⌋ else ⌈q⌉

/-- `metric_formatter` (main.rs lines 162-173), the amplitude-axis tick
formatter: a pure function of the value and the visible range
`len = range.end - range.start`. -/
def metric_formatter (v lo hi : ℚ) : String :=
  if hi - lo ≤ 1 / 1000000 then fmtOneDecimal (v / (1 / 1000000000)) ++ " n"
  else if hi - lo ≤ 1 / 1000 then fmtOneDecimal (v / (1 / 1000000)) ++ " u"
  else if hi - lo ≤ 1 then fmtOneDecimal (v / (1 / 1000)) ++ " m"
  else toString (truncInt (v / 60 / 60)) ++ " hrs"

/-- `time_formatter` (main.rs lines 175-184), the time-axis tick
formatter. -/
def time_formatter (v lo hi : ℚ) : String :=
  if hi - lo ≤ 60 * 2 then fmtOneDecimal v ++ " secs"
  else if hi - lo ≤ 60 * 60 * 2 then toString (truncInt (v / 60)) ++ " mins"
  else toString (truncInt (v / 60 / 60)) ++ " hrs"

/-- C8: The amplitude formatter scales by the visible range — nanounits
at range ≤ 1e-6, microunits at range ≤ 1e-3, milliunits at range ≤ 1,
and otherwise the hours-style label of the raw value, literally the
time formatter's hours branch; on value 2.5e-7 with range 5e-7 it
returns "250.0 n". -/
theorem metric_formatter_branches (v lo hi : ℚ) :
    (hi - lo ≤ 1 / 1000000 →
      metric_formatter v lo hi = fmtOneDecimal (v * 1000000000) ++ " n") ∧
    (1 / 1000000 < hi - lo → hi - lo ≤ 1 / 1000 →
      metric_formatter v lo hi = fmtOneDecimal (v * 1000000) ++ " u") ∧
    (1 / 1000 < hi - lo → hi - lo ≤ 1 →
      metric_formatter v lo hi = fmtOneDecimal (v * 1000) ++ " m") ∧
    (1 < hi - lo →
      metric_formatter v lo hi = toString (truncInt (v / 3600)) ++ " hrs") ∧
    (∀ lo2 hi2 : ℚ, 1 < hi - lo → 60 * 60 * 2 < hi2 - lo2 →
      metric_formatter v lo hi = time_formatter v lo2 hi2) ∧
    metric_formatter (1 / 4000000) 0 (1 / 2000000) = "250.0 n" := by
  have hdiv9 : v / (1 / 1000000000) = v * 1000000000 := by
    rw [div_div_eq_mul_div, div_one]
  have hdiv6 : v / (1 / 1000000) = v * 1000000 := by
    rw [div_div_eq_mul_div, div_one]
  have hdiv3 : v / (1 / 1000) = v * 1000 := by
    rw [div_div_eq_mul_div, div_one]
  have hdiv60 : v / 60 / 60 = v / 3600 := by ring
  refine ⟨?_, ?_, ?_, ?_, ?_, ?_⟩
  · intro h
    rw [metric_formatter, if_pos h, hdiv9]
  · intro h1 h2
    rw [metric_formatter, if_neg (not_le.mpr h1), if_pos h2, hdiv6]
  · intro h1 h2
    rw [metric_formatter, if_neg, if_neg (not_le.mpr h1), if_pos h2, hdiv3]
    exact not_le.mpr (lt_trans (by norm_num) h1)
  · intro h
    rw [metric_formatter, if_neg, if_neg, if_neg (not_le.mpr h), hdiv60]
    · exact not_le.mpr (lt_trans (by norm_num) h)
    · exact not_le.mpr (lt_trans (by norm_num) h)
  · intro lo2 hi2 h1 h2
    rw [metric_formatter, if_neg, if_neg, if_neg (not_le.mpr h1), time_formatter,
      if_neg, if_neg (not_le.mpr h2)]
    · exact not_le.mpr (lt_trans (by norm_num) h2)
    · exact not_le.mpr (lt_trans (by norm_num) h1)
    · exact not_le.mpr (lt_trans (by norm_num) h1)
  · rw [metric_formatter, if_pos (by norm_num)]
    have harg : (1 / 4000000 : ℚ) / (1 / 1000000000) = 250 := by norm_num
    rw [harg]
    have hr : round ((250 : ℚ) * 10) = 2500 := by
      rw [round_eq]
      norm_num
    rw [fmtOneDecimal, hr]
    decide

/-- Witness for `metric_formatter_branches`: the nanounit branch taken
at value 1, range `[0, 5e-7]`. -/
theorem metric_formatter_branches_witness :
    metric_formatter 1 0 (1 / 2000000) = fmtOneDecimal (1 * 1000000000) ++ " n" :=
  (metric_formatter_branches 1 0 (1 / 2000000)).1 (by norm_num)

/-- The zoom state read and written by the scroll handler (main.rs
lines 85-99 and 115-124): the global `plot_time` plus every channel's
`zoom`, with the index of the active channel.  Modelled over `ℝ`
because the per-frame zoom factor is the exponential `1.005^scroll`. -/
structure ScrollState (N : ℕ) where
  plot_time : ℝ
  zoom : Fin N → ℝ
  active : Fin N

/-- One frame's scroll input: pointer-over-plot flag, modifier key
(`Space`) flag, and vertical scroll delta. -/
structure ScrollEvent where
  hovered : Bool
  space : Bool
  scroll : ℝ

/-- The scroll handler (main.rs lines 116-123): if the pointer hovers
the plot, divide `plot_time` (modifier held) or the active channel's
`zoom` (otherwise) by `1.005f64.powf(scroll)`. -/
noncomputable def scrollStep {N : ℕ} (st : ScrollState N) (e : ScrollEvent) :
    ScrollState N :=
  if e.hovered then
    if e.space then
      { st with plot_time := st.plot_time / (1.005 : ℝ) ^ e.scroll }
    else
      let z := Function.update st.zoom st.active
        (st.zoom st.active / (1.005 : ℝ) ^ e.scroll)
      { st with zoom := z }
  else st

/-- A finite sequence of scroll frames, applied in order. -/
noncomputable def scrollRun {N : ℕ} (st : ScrollState N)
    (es : List ScrollEvent) : ScrollState N :=
  es.foldl scrollStep st

/-- One scroll frame keeps `plot_time` and every zoom strictly
positive. -/
lemma scrollStep_pos {N : ℕ} (st : ScrollState N) (e : ScrollEvent)
    (hpt : 0 < st.plot_time) (hz : ∀ i, 0 < st.zoom i) :
    0 < (scrollStep st e).plot_time ∧ ∀ i, 0 < (scrollStep st e).zoom i := by
  have hb : (0 : ℝ) < (1.005 : ℝ) ^ e.scroll :=
    Real.rpow_pos_of_pos (by norm_num) _
  rcases e with ⟨hov, sp, s⟩
  cases hov
  · exact ⟨hpt, hz⟩
  · cases sp
    · refine ⟨hpt, ?_⟩
      intro i
      show 0 < Function.update st.zoom st.active
        (st.zoom st.active / (1.005 : ℝ) ^ s) i
      rw [Function.update_apply]
      split
      · exact div_pos (hz _) hb
      · exact hz i
    · exact ⟨div_pos hpt hb, hz⟩

/-- Positivity is preserved by any finite sequence of scroll frames. -/
lemma scrollRun_pos {N : ℕ} (es : List ScrollEvent) (st : ScrollState N)
    (hpt : 0 < st.plot_time) (hz : ∀ i, 0 < st.zoom i) :
    0 < (scrollRun st es).plot_time ∧ ∀ i, 0 < (scrollRun st es).zoom i := by
  induction es generalizing st with
  | nil => exact ⟨hpt, hz⟩
  | cons e es ih =>
    have h := scrollStep_pos st e hpt hz
    exact ih (scrollStep st e) h.1 h.2

/-- C5: A hovered scroll of delta `s` rescales `plot_time` by
`1.005^(-s)` when the modifier is held (zooms untouched) and the active
channel's zoom by the same factor otherwise (`plot_time` untouched);
starting from strictly positive values, `plot_time` and every zoom stay
strictly positive after any finite sequence of scroll frames. -/
theorem scroll_rescales_and_preserves_positivity {N : ℕ}
    (st : ScrollState N) (s : ℝ) (es : List ScrollEvent)
    (hpt : 0 < st.plot_time) (hz : ∀ i, 0 < st.zoom i) :
    (scrollStep st ⟨true, true, s⟩).plot_time =
        st.plot_time * (1.005 : ℝ) ^ (-s) ∧
      (scrollStep st ⟨true, true, s⟩).zoom = st.zoom ∧
      (scrollStep st ⟨true, false, s⟩).zoom st.active =
        st.zoom st.active * (1.005 : ℝ) ^ (-s) ∧
      (scrollStep st ⟨true, false, s⟩).plot_time = st.plot_time ∧
      0 < (scrollRun st es).plot_time ∧
      ∀ i, 0 < (scrollRun st es).zoom i := by
  have hrw : ∀ x : ℝ, x / (1.005 : ℝ) ^ s = x * (1.005 : ℝ) ^ (-s) := by
    intro x
    rw [Real.rpow_neg (by norm_num), div_eq_mul_inv]
  refine ⟨?_, ?_, ?_, ?_, (scrollRun_pos es st hpt hz).1,
    (scrollRun_pos es st hpt hz).2⟩
  · show st.plot_time / (1.005 : ℝ) ^ s = _
    exact hrw st.plot_time
  · rfl
  · show Function.update st.zoom st.active
        (st.zoom st.active / (1.005 : ℝ) ^ s) st.active = _
    rw [Function.update_same]
    exact hrw _
  · rfl

/-- The session's initial viewer state (main.rs lines 39-45 and 93-101):
`plot_time = 10`, both channels at zoom 1. -/
noncomputable def initialScrollState : ScrollState 2 :=
  { plot_time := 10, zoom := fun _ => 1, active := 0 }

/-- Witness for `scroll_rescales_and_preserves_positivity` at the
initial state, delta 2, and one subsequent zoom-out frame. -/
theorem scroll_rescales_and_preserves_positivity_witness :
    0 < initialScrollState.plot_time ∧
      (∀ i, 0 < initialScrollState.zoom i) ∧
      ((scrollStep initialScrollState ⟨true, true, 2⟩).plot_time =
          initialScrollState.plot_time * (1.005 : ℝ) ^ (-(2 : ℝ)) ∧
        (scrollStep initialScrollState ⟨true, true, 2⟩).zoom =
          initialScrollState.zoom ∧
        (scrollStep initialScrollState ⟨true, false, 2⟩).zoom
            initialScrollState.active =
          initialScrollState.zoom initialScrollState.active *
            (1.005 : ℝ) ^ (-(2 : ℝ)) ∧
        (scrollStep initialScrollState ⟨true, false, 2⟩).plot_time =
          initialScrollState.plot_time ∧
        0 < (scrollRun initialScrollState [⟨true, false, -3⟩]).plot_time ∧
        ∀ i, 0 < (scrollRun initialScrollState [⟨true, false, -3⟩]).zoom i) :=
  ⟨by norm_num [initialScrollState], fun i => by norm_num [initialScrollState],
    scroll_rescales_and_preserves_positivity initialScrollState 2
      [⟨true, false, -3⟩] (by norm_num [initialScrollState])
      (fun i => by norm_num [initialScrollState])⟩
